import Mathlib

/-!
Verification of the GoogleAnalytics client's pagination and flattening logic
(`google_analytics/__init__.py`), as a shallow embedding in Lean 4.

The GA v4 response shape is modelled by explicit record types; the three
functions under study — `get_full_report`, `del_ga` and
`response_to_data_frame` — are translated from the source.  The external
`get_report` fetch is modelled by a script: a list of responses (or errors)
that the simulated provider serves, one per fetch call.
-/

set_option autoImplicit false

namespace GA

/-- One entry of `columnHeader.metricHeader.metricHeaderEntries`: a metric
name together with the other payload the API returns for it (its type). -/
structure MetricHeaderEntry where
  name : String
  type : String
deriving DecidableEq, Repr

/-- `columnHeader.metricHeader` of a report. -/
structure MetricHeader where
  metricHeaderEntries : List MetricHeaderEntry
deriving DecidableEq, Repr

/-- `columnHeader` of a report: dimension names plus the metric header. -/
structure ColumnHeader where
  dimensions : List String
  metricHeader : MetricHeader
deriving DecidableEq, Repr

/-- One metric-value group of a row (`row.metrics[j].values`), one group per
requested date range. -/
structure DateRangeValues where
  values : List String
deriving DecidableEq, Repr

/-- One row of a report: dimension values parallel to the dimension headers,
and one or more metric-value groups. -/
structure ReportRow where
  dimensions : List String
  metrics : List DateRangeValues
deriving DecidableEq, Repr

/-- `report.data`. -/
structure ReportData where
  rows : List ReportRow
deriving DecidableEq, Repr

/-- One element of the response's `reports` list. -/
structure Report where
  columnHeader : ColumnHeader
  data : ReportData
  nextPageToken : Option String
deriving DecidableEq, Repr

/-- A whole batchGet response: a list of reports. -/
structure GAResponse where
  reports : List Report
deriving DecidableEq, Repr

/-- Error raised by the external `get_report` call (network, auth, quota,
malformed query). -/
inductive ApiError where
  | mk (msg : String)
deriving DecidableEq, Repr

/-- Everything that can abort a `get_full_report` run: a propagated
`ApiError`, the `IndexError` from `response.get('reports')[0]` on a response
with no reports, or the simulated provider running out of scripted pages. -/
inductive RunError where
  | api (e : ApiError)
  | shape
  | exhausted
deriving DecidableEq, Repr

/-- The rows of a response's first report (`response['reports'][0]['data']['rows']`);
`[]` when there is no report. -/
def pageRows (p : GAResponse) : List ReportRow :=
  match p.reports with
  | [] => []
  | r0 :: _ => r0.data.rows

/-- The continuation token of a response's first report
(`response['reports'][0]['nextPageToken']`); `none` when there is no report. -/
def pageToken (p : GAResponse) : Option String :=
  match p.reports with
  | [] => none
  | r0 :: _ => r0.nextPageToken

/-- The column header of a response's first report. -/
def pageHeader (p : GAResponse) : Option ColumnHeader :=
  (p.reports.head?).map Report.columnHeader

/-- The `while next_page_token is not None` loop of `get_full_report`.
The script holds the provider's remaining answers, one per fetch call;
`rows` is the accumulated row list.  Returns the final row list (or the
first error) together with the number of fetch calls the loop made. -/
def fetchLoop : List (Except ApiError GAResponse) → List ReportRow → Option String →
    Except RunError (List ReportRow) × Nat
  | _, rows, none => (Except.ok rows, 0)
  | [], _, some _ => (Except.error RunError.exhausted, 1)
  | page :: rest, rows, some _ =>
    match page with
    | Except.error e => (Except.error (RunError.api e), 1)
    | Except.ok next_page =>
      match next_page.reports with
      | [] => (Except.error RunError.shape, 1)
      | r0 :: _ =>
        let r := fetchLoop rest (rows ++ r0.data.rows) r0.nextPageToken
        (r.1, r.2 + 1)

/-- `GoogleAnalytics.get_full_report`, run against a scripted provider:
fetch a first page, loop while the token `is not None`, then return the
FIRST response with its first report's rows replaced by the accumulated
list.  The second component counts fetch calls made. -/
def get_full_report (script : List (Except ApiError GAResponse)) :
    Except RunError GAResponse × Nat :=
  match script with
  | [] => (Except.error RunError.exhausted, 1)
  | first :: rest =>
    match first with
    | Except.error e => (Except.error (RunError.api e), 1)
    | Except.ok response =>
      match response.reports with
      | [] => (Except.error RunError.shape, 1)
      | r0 :: rs =>
        let r := fetchLoop rest r0.data.rows r0.nextPageToken
        match r.1 with
        | Except.error e => (Except.error e, r.2 + 1)
        | Except.ok rows =>
          (Except.ok { reports := { r0 with data := { rows := rows } } :: rs }, r.2 + 1)

/-- The merged response `get_full_report` returns (its first component). -/
def fullResult (script : List (Except ApiError GAResponse)) : Except RunError GAResponse :=
  (get_full_report script).1

/-- How many fetch calls a `get_full_report` run makes. -/
def fullCalls (script : List (Except ApiError GAResponse)) : Nat :=
  (get_full_report script).2

/-- The merged row list of a successful run. -/
def fullRows (script : List (Except ApiError GAResponse)) : Option (List ReportRow) :=
  match fullResult script with
  | Except.ok r => some (pageRows r)
  | Except.error _ => none

/-- The column header carried by the merged response of a successful run. -/
def fullHeader (script : List (Except ApiError GAResponse)) : Option ColumnHeader :=
  match fullResult script with
  | Except.ok r => pageHeader r
  | Except.error _ => none

/-- A wellformed simulated pagination: at least one page, every page has at
least one report, every page but the last carries a continuation token
(`is not None`), and the last page carries none. -/
def goodPages : List GAResponse → Bool
  | [] => false
  | [p] => !p.reports.isEmpty && (pageToken p).isNone
  | p :: q :: rest => !p.reports.isEmpty && (pageToken p).isSome && goodPages (q :: rest)

/-- Python-dict insertion on an association list: an existing key keeps its
position and gets the new value, a new key is appended. -/
def dictInsert : List (String × String) → String → String → List (String × String)
  | [], k, v => [(k, v)]
  | p :: rest, k, v => if p.1 = k then (k, v) :: rest else p :: dictInsert rest k v

/-- Insert a list of key-value pairs in order (`for k, v in pairs: d[k] = v`). -/
def insertPairs (d : List (String × String)) (pairs : List (String × String)) :
    List (String × String) :=
  pairs.foldl (fun acc p => dictInsert acc p.1 p.2) d

/-- Python-dict lookup: value of the first (hence only) entry with the key. -/
def lookup (d : List (String × String)) (k : String) : Option String :=
  (d.find? (fun p => p.1 == k)).map Prod.snd

/-- The pairs `zip(metric_headers, values.get('values'))` contributes,
keyed by `metricHeader.get('name')`. -/
def metricPairs (metricHeaders : List MetricHeaderEntry) (g : DateRangeValues) :
    List (String × String) :=
  (metricHeaders.zip g.values).map (fun mv => (mv.1.name, mv.2))

/-- The `df_row` dictionary built for one row by `response_to_data_frame`:
dimension headers zipped with dimension values, then for each date-range
group the metric names zipped with that group's values, later inserts
overwriting earlier ones. -/
def flattenRow (dimensionHeaders : List String) (metricHeaders : List MetricHeaderEntry)
    (row : ReportRow) : List (String × String) :=
  row.metrics.foldl (fun acc g => insertPairs acc (metricPairs metricHeaders g))
    (insertPairs [] (dimensionHeaders.zip row.dimensions))

/-- The `df_raws` list one iteration of the report loop builds: one flat
record per row of the report. -/
def flattenReport (report : Report) : List (List (String × String)) :=
  report.data.rows.map
    (flattenRow report.columnHeader.dimensions
      report.columnHeader.metricHeader.metricHeaderEntries)

/-- `GoogleAnalytics.response_to_data_frame` up to the final
`pd.DataFrame(df_raws)` call: the loop rebinds `df_raws` for every report,
so the returned table is built from the last report; with no report at all
`df_raws` is unbound and the `return` raises `NameError`, modelled as
`none`. -/
def response_to_data_frame (response : GAResponse) :
    Option (List (List (String × String))) :=
  response.reports.foldl (fun _ report => some (flattenReport report)) none

/-- `GoogleAnalytics.del_ga`: drops the first three characters of every
dimension header of the FIRST report unconditionally, and strips a leading
`"ga:"` from each metric header entry's name where present.  Indexing
`response['reports'][0]` with no reports raises, modelled as `none`. -/
def del_ga (response : GAResponse) : Option GAResponse :=
  match response.reports with
  | [] => none
  | r0 :: rest =>
    let newDims := r0.columnHeader.dimensions.map (fun x => x.drop 3)
    let newEntries := r0.columnHeader.metricHeader.metricHeaderEntries.map
      (fun header =>
        if header.name.take 3 = "ga:" then { header with name := header.name.drop 3 }
        else header)
    some { reports :=
      { r0 with columnHeader :=
        { dimensions := newDims, metricHeader := { metricHeaderEntries := newEntries } } } :: rest }

/-- The dimension headers of a response's first report; `[]` with no report. -/
def dimsOf (p : GAResponse) : List String :=
  match p.reports with
  | [] => []
  | r0 :: _ => r0.columnHeader.dimensions

/-- Pages that are all in the middle of a pagination: each has a report and
carries a continuation token, so the loop keeps fetching after each one. -/
def midPages (ps : List GAResponse) : Bool :=
  ps.all (fun p => !p.reports.isEmpty && (pageToken p).isSome)

/-- A sample column header, as the GA API returns it. -/
def wHeader : ColumnHeader := ⟨["ga:date"], ⟨[⟨"ga:sessions", "INTEGER"⟩]⟩⟩

/-- A sample row. -/
def wRow1 : ReportRow := ⟨["20200901"], [⟨["42"]⟩]⟩

/-- Another sample row. -/
def wRow2 : ReportRow := ⟨["20200902"], [⟨["7"]⟩]⟩

/-- A sample first page whose report carries a continuation token. -/
def wPage1 : GAResponse := ⟨[⟨wHeader, ⟨[wRow1]⟩, some "tok1"⟩]⟩

/-- A sample last page: no continuation token. -/
def wPage2 : GAResponse := ⟨[⟨wHeader, ⟨[wRow2]⟩, none⟩]⟩

/-- A page whose report carries the EMPTY STRING as continuation token. -/
def emptyTokenPage : GAResponse := ⟨[⟨wHeader, ⟨[wRow1]⟩, some ""⟩]⟩

/-- A last page with a column header different from `wHeader`. -/
def otherHeaderPage : GAResponse :=
  ⟨[⟨⟨["ga:campaign"], ⟨[⟨"ga:users", "INTEGER"⟩]⟩⟩, ⟨[wRow2]⟩, none⟩]⟩

/-- The single-report response of the flattening example: dimension headers
`["date", "sourceMedium"]`, metric header `"sessions"`, one row. -/
def flatExample : GAResponse :=
  ⟨[⟨⟨["date", "sourceMedium"], ⟨[⟨"sessions", "INTEGER"⟩]⟩⟩,
     ⟨[⟨["20200901", "google / cpc"], [⟨["42"]⟩]⟩]⟩, none⟩]⟩

/-- A single-report response with no rows at all. -/
def emptyRowsReport : Report := ⟨wHeader, ⟨[]⟩, none⟩

/-- The response wrapping `emptyRowsReport`. -/
def emptyRowsResponse : GAResponse := ⟨[emptyRowsReport]⟩

/-- A report whose single row is tagged "A". -/
def reportA : Report :=
  ⟨⟨["date"], ⟨[⟨"sessions", "INTEGER"⟩]⟩⟩, ⟨[⟨["A"], [⟨["1"]⟩]⟩]⟩, none⟩

/-- A report whose single row is tagged "B". -/
def reportB : Report :=
  ⟨⟨["date"], ⟨[⟨"sessions", "INTEGER"⟩]⟩⟩, ⟨[⟨["B"], [⟨["2"]⟩]⟩]⟩, none⟩

/-- A response whose first report's dimension header already lacks the
`"ga:"` prefix. -/
def strippedDimsResponse : GAResponse :=
  ⟨[⟨⟨["ga:date"], ⟨[⟨"ga:sessions", "INTEGER"⟩]⟩⟩, ⟨[]⟩, none⟩]⟩

/-- A row carrying two metric-value groups (two date ranges). -/
def twoGroupRow : ReportRow := ⟨["20200901"], [⟨["10"]⟩, ⟨["42"]⟩]⟩

end GA

namespace GA

theorem pageToken_eq (p : GAResponse) (r0 : Report) (rs : List Report)
    (hp : p.reports = r0 :: rs) : pageToken p = r0.nextPageToken := by
  unfold pageToken
  rw [hp]

theorem pageRows_eq (p : GAResponse) (r0 : Report) (rs : List Report)
    (hp : p.reports = r0 :: rs) : pageRows p = r0.data.rows := by
  unfold pageRows
  rw [hp]

theorem fetchLoop_token_none (script : List (Except ApiError GAResponse))
    (rows : List ReportRow) :
    fetchLoop script rows none = (Except.ok rows, 0) := by
  cases script <;> rfl

theorem fetchLoop_cons_ok (np : GAResponse) (rest : List (Except ApiError GAResponse))
    (rows : List ReportRow) (t : String) (r0 : Report) (rs : List Report)
    (h : np.reports = r0 :: rs) :
    fetchLoop (Except.ok np :: rest) rows (some t) =
      ((fetchLoop rest (rows ++ r0.data.rows) r0.nextPageToken).1,
       (fetchLoop rest (rows ++ r0.data.rows) r0.nextPageToken).2 + 1) := by
  obtain ⟨reports⟩ := np
  simp only [GAResponse.mk.injEq] at h
  subst h
  rfl

theorem get_full_report_cons_ok (response : GAResponse)
    (rest : List (Except ApiError GAResponse)) (r0 : Report) (rs : List Report)
    (h : response.reports = r0 :: rs) :
    get_full_report (Except.ok response :: rest) =
      match (fetchLoop rest r0.data.rows r0.nextPageToken).1 with
      | Except.error e =>
          (Except.error e, (fetchLoop rest r0.data.rows r0.nextPageToken).2 + 1)
      | Except.ok rows =>
          (Except.ok { reports := { r0 with data := { rows := rows } } :: rs },
           (fetchLoop rest r0.data.rows r0.nextPageToken).2 + 1) := by
  obtain ⟨reports⟩ := response
  simp only [GAResponse.mk.injEq] at h
  subst h
  rfl

theorem goodPages_reports_ne (p : GAResponse) (ps : List GAResponse)
    (h : goodPages (p :: ps) = true) : p.reports ≠ [] := by
  intro hng
  cases ps <;> simp [goodPages, hng, List.isEmpty] at h

theorem goodPages_head_reports (p : GAResponse) (ps : List GAResponse)
    (h : goodPages (p :: ps) = true) : ∃ r0 rs, p.reports = r0 :: rs := by
  cases hpr : p.reports with
  | nil => exact absurd hpr (goodPages_reports_ne p ps h)
  | cons a l => exact ⟨a, l, rfl⟩

theorem goodPages_single_token (p : GAResponse) (h : goodPages [p] = true) :
    pageToken p = none := by
  simp [goodPages, Option.isNone_iff_eq_none] at h
  exact h.2

theorem goodPages_cons_token (p q : GAResponse) (qs : List GAResponse)
    (h : goodPages (p :: q :: qs) = true) :
    (∃ t, pageToken p = some t) ∧ goodPages (q :: qs) = true := by
  simp only [goodPages, Bool.and_eq_true, Bool.not_eq_true'] at h
  exact ⟨Option.isSome_iff_exists.mp h.1.2, h.2⟩

theorem fetchLoop_good (qs : List GAResponse) (rows : List ReportRow) (t : String)
    (h : goodPages qs = true) :
    fetchLoop (qs.map Except.ok) rows (some t) =
      (Except.ok (rows ++ (qs.map pageRows).flatten), qs.length) := by
  induction qs generalizing rows t with
  | nil => simp [goodPages] at h
  | cons p qs ih =>
    obtain ⟨r0, rs, hp⟩ := goodPages_head_reports p qs h
    cases qs with
    | nil =>
      have htok : r0.nextPageToken = none := by
        rw [← pageToken_eq p r0 rs hp]
        exact goodPages_single_token p h
      rw [List.map_cons, List.map_nil, fetchLoop_cons_ok p [] rows t r0 rs hp, htok,
        fetchLoop_token_none]
      simp [pageRows_eq p r0 rs hp]
    | cons q qs' =>
      obtain ⟨⟨t', ht'⟩, hgood⟩ := goodPages_cons_token p q qs' h
      rw [pageToken_eq p r0 rs hp] at ht'
      rw [List.map_cons, fetchLoop_cons_ok p ((q :: qs').map Except.ok) rows t r0 rs hp,
        ht', ih (rows ++ r0.data.rows) t' hgood]
      simp [pageRows_eq p r0 rs hp]

theorem get_full_report_good (p : GAResponse) (ps : List GAResponse)
    (r0 : Report) (rs : List Report)
    (h : goodPages (p :: ps) = true) (hp : p.reports = r0 :: rs) :
    get_full_report ((p :: ps).map Except.ok) =
      (Except.ok
        { reports :=
            { r0 with data := { rows := ((p :: ps).map pageRows).flatten } } :: rs },
       (p :: ps).length) := by
  cases ps with
  | nil =>
    have htok : r0.nextPageToken = none := by
      rw [← pageToken_eq p r0 rs hp]
      exact goodPages_single_token p h
    rw [List.map_cons, List.map_nil, get_full_report_cons_ok p [] r0 rs hp, htok,
      fetchLoop_token_none]
    simp [pageRows_eq p r0 rs hp]
  | cons q qs' =>
    obtain ⟨⟨t', ht'⟩, hgood⟩ := goodPages_cons_token p q qs' h
    rw [pageToken_eq p r0 rs hp] at ht'
    have hfl : fetchLoop ((q :: qs').map Except.ok) r0.data.rows r0.nextPageToken =
        (Except.ok (r0.data.rows ++ ((q :: qs').map pageRows).flatten),
         (q :: qs').length) := by
      rw [ht']
      exact fetchLoop_good (q :: qs') r0.data.rows t' hgood
    rw [List.map_cons, get_full_report_cons_ok p ((q :: qs').map Except.ok) r0 rs hp, hfl]
    simp [pageRows_eq p r0 rs hp]

end GA

namespace GA

theorem midPages_cons (q : GAResponse) (qs : List GAResponse)
    (h : midPages (q :: qs) = true) :
    (∃ r0 rs, q.reports = r0 :: rs) ∧ (∃ t, pageToken q = some t) ∧
      midPages qs = true := by
  simp only [midPages, List.all_cons, Bool.and_eq_true, Bool.not_eq_true'] at h
  refine ⟨?_, Option.isSome_iff_exists.mp h.1.2, h.2⟩
  cases hpr : q.reports with
  | nil => rw [hpr] at h; simp [List.isEmpty] at h
  | cons a l => exact ⟨a, l, rfl⟩

theorem fetchLoop_error (qs : List GAResponse) (e : ApiError)
    (rest : List (Except ApiError GAResponse)) (rows : List ReportRow) (t : String)
    (h : midPages qs = true) :
    fetchLoop (qs.map Except.ok ++ Except.error e :: rest) rows (some t) =
      (Except.error (RunError.api e), qs.length + 1) := by
  induction qs generalizing rows t with
  | nil => rfl
  | cons q qs' ih =>
    obtain ⟨⟨r0, rs, hp⟩, ⟨t', ht'⟩, hmid⟩ := midPages_cons q qs' h
    rw [pageToken_eq q r0 rs hp] at ht'
    rw [List.map_cons, List.cons_append,
      fetchLoop_cons_ok q (qs'.map Except.ok ++ Except.error e :: rest) rows t r0 rs hp,
      ht', ih (rows ++ r0.data.rows) t' hmid]
    simp [Nat.add_assoc]

/-- C1: for a simulated provider returning N pages, each with a continuation
token except the last, `get_full_report` yields exactly the concatenation of
all N pages' rows in page order and performs exactly N fetch calls (for a
single tokenless page, exactly one call). -/
theorem pagination_completeness (ps : List GAResponse) (h : goodPages ps = true) :
    fullRows (ps.map Except.ok) = some ((ps.map pageRows).flatten) ∧
    fullCalls (ps.map Except.ok) = ps.length := by
  cases ps with
  | nil => simp [goodPages] at h
  | cons p ps' =>
    obtain ⟨r0, rs, hp⟩ := goodPages_head_reports p ps' h
    have hg := get_full_report_good p ps' r0 rs h hp
    simp only [List.map_cons] at hg
    constructor
    · simp [fullRows, fullResult, hg, pageRows, hp]
    · simp [fullCalls, hg]

/-- Witness for C1 at a concrete two-page pagination. -/
theorem pagination_completeness_witness :
    fullRows ([wPage1, wPage2].map Except.ok) =
      some (([wPage1, wPage2].map pageRows).flatten) ∧
    fullCalls ([wPage1, wPage2].map Except.ok) = [wPage1, wPage2].length :=
  pagination_completeness [wPage1, wPage2] (by decide)

/-- C3 counterexample: a page whose continuation token is the EMPTY STRING
does not terminate pagination — the code tests `is not None`, so a second
fetch is issued and the run makes 2 calls, not 1. -/
theorem empty_token_continues_pagination :
    pageToken emptyTokenPage = some "" ∧
    fullCalls [Except.ok emptyTokenPage, Except.ok wPage2] = 2 ∧
    fullCalls [Except.ok emptyTokenPage, Except.ok wPage2] ≠ 1 := by
  refine ⟨rfl, rfl, ?_⟩
  decide

/-- C3 amended: after each fetch, `get_full_report` issues another fetch if
and only if the returned continuation token is not null (`is not None`); an
empty-string token counts as present and triggers another fetch. -/
theorem pagination_continues_iff_token_not_none (p q : GAResponse)
    (r0 : Report) (rs : List Report) (hp : p.reports = r0 :: rs)
    (hq : goodPages [q] = true) :
    (pageToken p = none → fullCalls [Except.ok p] = 1) ∧
    (∀ t : String, pageToken p = some t →
      fullCalls [Except.ok p, Except.ok q] = 2) := by
  constructor
  · intro h0
    rw [pageToken_eq p r0 rs hp] at h0
    simp [fullCalls, get_full_report_cons_ok p [] r0 rs hp, h0, fetchLoop_token_none]
  · intro t ht
    rw [pageToken_eq p r0 rs hp] at ht
    have hfl : fetchLoop [Except.ok q] r0.data.rows r0.nextPageToken =
        (Except.ok (r0.data.rows ++ ([q].map pageRows).flatten), 1) := by
      rw [ht]
      exact fetchLoop_good [q] r0.data.rows t hq
    simp [fullCalls, get_full_report_cons_ok p [Except.ok q] r0 rs hp, hfl]

/-- Witness for C3's amended claim: the tokenless page alone takes one call,
and any present token (the quantified `t`) forces a second call. -/
theorem pagination_continues_iff_token_not_none_witness :
    (pageToken wPage1 = none → fullCalls [Except.ok wPage1] = 1) ∧
    (∀ t : String, pageToken wPage1 = some t →
      fullCalls [Except.ok wPage1, Except.ok wPage2] = 2) :=
  pagination_continues_iff_token_not_none wPage1 wPage2
    ⟨wHeader, ⟨[wRow1]⟩, some "tok1"⟩ [] rfl (by decide)

/-- C4 counterexample: with two pages carrying different column headers, the
merged response carries the FIRST page's headers, not the last page's — the
code writes the accumulated rows back into the first response. -/
theorem merged_headers_not_from_last_page :
    fullHeader [Except.ok wPage1, Except.ok otherHeaderPage] = pageHeader wPage1 ∧
    fullHeader [Except.ok wPage1, Except.ok otherHeaderPage] ≠
      pageHeader otherHeaderPage := by
  refine ⟨rfl, ?_⟩
  decide

/-- C4 amended: for every wellformed multi-page extraction the merged
structure carries the column headers of the FIRST fetched page, together
with the fully concatenated row sequence. -/
theorem merged_headers_from_first_page (ps : List GAResponse)
    (h : goodPages ps = true) :
    fullHeader (ps.map Except.ok) = ps.head?.bind pageHeader ∧
    fullRows (ps.map Except.ok) = some ((ps.map pageRows).flatten) := by
  cases ps with
  | nil => simp [goodPages] at h
  | cons p ps' =>
    obtain ⟨r0, rs, hp⟩ := goodPages_head_reports p ps' h
    have hg := get_full_report_good p ps' r0 rs h hp
    simp only [List.map_cons] at hg
    constructor
    · simp [fullHeader, fullResult, hg, pageHeader, hp]
    · simp [fullRows, fullResult, hg, pageRows, hp]

/-- Witness for C4's amended claim at a concrete two-page pagination. -/
theorem merged_headers_from_first_page_witness :
    fullHeader ([wPage1, wPage2].map Except.ok) =
      [wPage1, wPage2].head?.bind pageHeader ∧
    fullRows ([wPage1, wPage2].map Except.ok) =
      some (([wPage1, wPage2].map pageRows).flatten) :=
  merged_headers_from_first_page [wPage1, wPage2] (by decide)

/-- C7: if the fetch of page k+1 fails, `get_full_report` propagates the API
error immediately: exactly k+1 fetch calls happen (none of the script after
the failure is consumed), the run's result is that error, and no partial row
list is returned. -/
theorem error_propagation (ps : List GAResponse) (e : ApiError)
    (rest : List (Except ApiError GAResponse)) (h : midPages ps = true) :
    fullResult (ps.map Except.ok ++ Except.error e :: rest) =
      Except.error (RunError.api e) ∧
    fullRows (ps.map Except.ok ++ Except.error e :: rest) = none ∧
    fullCalls (ps.map Except.ok ++ Except.error e :: rest) = ps.length + 1 := by
  cases ps with
  | nil =>
    refine ⟨rfl, ?_, rfl⟩
    rfl
  | cons p ps' =>
    obtain ⟨⟨r0, rs, hp⟩, ⟨t, ht⟩, hmid⟩ := midPages_cons p ps' h
    rw [pageToken_eq p r0 rs hp] at ht
    have hfl : fetchLoop (ps'.map Except.ok ++ Except.error e :: rest)
        r0.data.rows r0.nextPageToken =
        (Except.error (RunError.api e), ps'.length + 1) := by
      rw [ht]
      exact fetchLoop_error ps' e rest r0.data.rows t hmid
    refine ⟨?_, ?_, ?_⟩
    · simp [fullResult, List.cons_append,
        get_full_report_cons_ok p (ps'.map Except.ok ++ Except.error e :: rest) r0 rs hp,
        hfl]
    · simp [fullRows, fullResult, List.cons_append,
        get_full_report_cons_ok p (ps'.map Except.ok ++ Except.error e :: rest) r0 rs hp,
        hfl]
    · simp [fullCalls, List.cons_append,
        get_full_report_cons_ok p (ps'.map Except.ok ++ Except.error e :: rest) r0 rs hp,
        hfl]

/-- Witness for C7: page 2 of a 3-page script fails; the error surfaces
after exactly 2 fetch calls and the third page is never fetched. -/
theorem error_propagation_witness :
    fullResult ([wPage1].map Except.ok ++
        Except.error (ApiError.mk "boom") :: [Except.ok wPage2]) =
      Except.error (RunError.api (ApiError.mk "boom")) ∧
    fullRows ([wPage1].map Except.ok ++
        Except.error (ApiError.mk "boom") :: [Except.ok wPage2]) = none ∧
    fullCalls ([wPage1].map Except.ok ++
        Except.error (ApiError.mk "boom") :: [Except.ok wPage2]) =
      [wPage1].length + 1 :=
  error_propagation [wPage1] (ApiError.mk "boom") [Except.ok wPage2] (by decide)

end GA

namespace GA

theorem lookup_dictInsert_self (d : List (String × String)) (k v : String) :
    lookup (dictInsert d k v) k = some v := by
  induction d with
  | nil => simp [dictInsert, lookup]
  | cons p rest ih =>
    by_cases hpk : p.1 = k
    · simp [dictInsert, hpk, lookup]
    · simp only [dictInsert, hpk, if_false]
      unfold lookup
      rw [List.find?_cons_of_neg]
      · exact ih
      · simp [hpk]

theorem lookup_dictInsert_ne (d : List (String × String)) (k v k' : String)
    (h : k' ≠ k) : lookup (dictInsert d k v) k' = lookup d k' := by
  induction d with
  | nil =>
    unfold dictInsert lookup
    rw [List.find?_cons_of_neg]
    simp only [beq_iff_eq]
    exact fun he => h he.symm
  | cons p rest ih =>
    by_cases hpk : p.1 = k
    · unfold lookup
      simp only [dictInsert, hpk, if_true]
      rw [List.find?_cons_of_neg, List.find?_cons_of_neg]
      · rw [hpk]
        simp
        intro he
        exact absurd he.symm h
      · simp
        intro he
        exact absurd he.symm h
    · unfold lookup
      simp only [dictInsert, hpk, if_false]
      by_cases hpk' : p.1 = k'
      · rw [List.find?_cons_of_pos, List.find?_cons_of_pos] <;> simp [hpk']
      · rw [List.find?_cons_of_neg, List.find?_cons_of_neg]
        · exact ih
        · simp [hpk']
        · simp [hpk']

theorem insertPairs_cons (d : List (String × String)) (a : String × String)
    (l : List (String × String)) :
    insertPairs d (a :: l) = insertPairs (dictInsert d a.1 a.2) l := rfl

theorem lookup_insertPairs_not_mem (pairs : List (String × String))
    (d : List (String × String)) (k : String)
    (h : ∀ p ∈ pairs, p.1 ≠ k) :
    lookup (insertPairs d pairs) k = lookup d k := by
  induction pairs generalizing d with
  | nil => rfl
  | cons a l ih =>
    rw [insertPairs_cons, ih (dictInsert d a.1 a.2) (fun p hp => h p (by simp [hp])),
      lookup_dictInsert_ne]
    exact fun he => h a (by simp) he.symm

theorem metricPairs_keys (mh : List MetricHeaderEntry) (g : DateRangeValues)
    (pr : String × String) (hp : pr ∈ metricPairs mh g) :
    pr.1 ∈ mh.map MetricHeaderEntry.name := by
  unfold metricPairs at hp
  obtain ⟨mv, hmv, hpr⟩ := List.mem_map.mp hp
  rw [← hpr]
  exact List.mem_map.mpr ⟨mv.1, (List.of_mem_zip hmv).1, rfl⟩

theorem lookup_insertPairs_zipped (mh : List MetricHeaderEntry) (vs : List String)
    (d : List (String × String)) (hnd : (mh.map MetricHeaderEntry.name).Nodup)
    (i : Nat) (him : i < mh.length) (hiv : i < vs.length) :
    lookup (insertPairs d ((mh.zip vs).map (fun mv => (mv.1.name, mv.2))))
      ((mh.get ⟨i, him⟩).name) = some (vs.get ⟨i, hiv⟩) := by
  induction mh generalizing vs d i with
  | nil => exact absurd him (by simp)
  | cons m mh' ih =>
    cases vs with
    | nil => exact absurd hiv (by simp)
    | cons v vs' =>
      rw [List.zip_cons_cons, List.map_cons, insertPairs_cons]
      simp only [List.map_cons, List.nodup_cons] at hnd
      cases i with
      | zero =>
        have hkeys : ∀ pr ∈ (mh'.zip vs').map (fun mv => (mv.1.name, mv.2)),
            pr.1 ≠ m.name := by
          intro pr hpr he
          exact hnd.1 (he ▸ metricPairs_keys mh' ⟨vs'⟩ pr hpr)
        have hg1 : (m :: mh').get ⟨0, him⟩ = m := rfl
        have hg2 : (v :: vs').get ⟨0, hiv⟩ = v := rfl
        rw [hg1, hg2, lookup_insertPairs_not_mem _ _ _ hkeys]
        exact lookup_dictInsert_self d m.name v
      | succ j =>
        exact ih vs' (dictInsert d m.name v) hnd.2 j
          (Nat.lt_of_succ_lt_succ him) (Nat.lt_of_succ_lt_succ hiv)

/-- C2: on a page with dimension headers `["date", "sourceMedium"]`, metric
header `"sessions"`, and one row with dimension values
`["20200901", "google / cpc"]` and one metric group `["42"]`, the flattening
produces exactly the single record
`{"date": "20200901", "sourceMedium": "google / cpc", "sessions": "42"}`. -/
theorem flattening_correctness :
    response_to_data_frame flatExample =
      some [[("date", "20200901"), ("sourceMedium", "google / cpc"),
             ("sessions", "42")]] := rfl

/-- C6: for a row carrying several metric-value groups, the flat record maps
each metric header name to that metric's value in the LAST group — later
groups overwrite earlier ones. -/
theorem multi_group_last_wins (dh : List String) (mh : List MetricHeaderEntry)
    (row : ReportRow) (gs : List DateRangeValues) (g : DateRangeValues)
    (hm : row.metrics = gs ++ [g])
    (hnd : (mh.map MetricHeaderEntry.name).Nodup)
    (i : Nat) (him : i < mh.length) (hiv : i < g.values.length) :
    lookup (flattenRow dh mh row) ((mh.get ⟨i, him⟩).name) =
      some (g.values.get ⟨i, hiv⟩) := by
  unfold flattenRow
  rw [hm, List.foldl_append, List.foldl_cons, List.foldl_nil]
  unfold metricPairs
  exact lookup_insertPairs_zipped mh g.values _ hnd i him hiv

/-- Witness for C6: a row with groups `["10"]` then `["42"]` for the single
metric `"sessions"` flattens to the LAST group's value `"42"`. -/
theorem multi_group_last_wins_witness :
    lookup (flattenRow ["date"] [⟨"sessions", "INTEGER"⟩] twoGroupRow)
      ((([⟨"sessions", "INTEGER"⟩] : List MetricHeaderEntry).get
        ⟨0, by decide⟩).name) =
      some ((⟨["42"]⟩ : DateRangeValues).values.get ⟨0, by decide⟩) :=
  multi_group_last_wins ["date"] [⟨"sessions", "INTEGER"⟩] twoGroupRow
    [⟨["10"]⟩] ⟨["42"]⟩ rfl (by decide) 0 (by decide) (by decide)

/-- C8: for a single-page response, `response_to_data_frame` produces
exactly one flat record per input row — the table length equals the page's
row count; an empty row sequence yields an empty table and no error. -/
theorem one_record_per_row (response : GAResponse) (r : Report)
    (h : response.reports = [r]) :
    (response_to_data_frame response).map List.length =
      some r.data.rows.length := by
  simp [response_to_data_frame, h, flattenReport]

/-- Witness for C8 at a page with no rows: the table is empty (length 0)
and no error occurs (the result is `some`, not `none`). -/
theorem one_record_per_row_witness :
    (response_to_data_frame emptyRowsResponse).map List.length =
      some emptyRowsReport.data.rows.length :=
  one_record_per_row emptyRowsResponse emptyRowsReport rfl

/-- C9: when a response holds two or more reports, the table is built only
from the LAST report's rows — every earlier report is discarded, because the
loop rebinds `df_raws` on each iteration. -/
theorem last_report_wins (response : GAResponse) (rs : List Report) (r : Report)
    (h : response.reports = rs ++ [r]) :
    response_to_data_frame response = some (flattenReport r) := by
  simp [response_to_data_frame, h, List.foldl_append]

/-- Witness for C9: with reports A then B, only B's rows appear. -/
theorem last_report_wins_witness :
    response_to_data_frame ⟨[reportA, reportB]⟩ = some (flattenReport reportB) :=
  last_report_wins ⟨[reportA, reportB]⟩ [reportA] reportB rfl

end GA

namespace GA

theorem stripName_preserves_type (entries : List MetricHeaderEntry) :
    (entries.map (fun header =>
      if header.name.take 3 = "ga:" then { header with name := header.name.drop 3 }
      else header)).map MetricHeaderEntry.type =
      entries.map MetricHeaderEntry.type := by
  induction entries with
  | nil => rfl
  | cons a l ih =>
    simp only [List.map_cons, ih]
    congr 1
    by_cases h : a.name.take 3 = "ga:" <;> simp [h]

/-- C5: the claim that `del_ga` is idempotent and leaves unprefixed headers
unchanged fails on the code: the dimension branch truncates three characters
UNCONDITIONALLY (only the metric branch checks for the `"ga:"` prefix), so a
first application turns `"ga:date"` into `"date"` and a second application
turns `"date"` into `"e"` — contradicting the function's own documented
behaviour of removing `"ga:"` from the names. -/
theorem del_ga_truncates_unprefixed_dimensions :
    (del_ga strippedDimsResponse).map dimsOf = some ["date"] ∧
    ((del_ga strippedDimsResponse).bind del_ga).map dimsOf = some ["e"] ∧
    ((del_ga strippedDimsResponse).bind del_ga).map dimsOf ≠
      (del_ga strippedDimsResponse).map dimsOf := by
  refine ⟨rfl, rfl, ?_⟩
  decide

/-- C10: `del_ga` modifies only the first report's dimension header list and
the names of its metric header entries: the first report's row data and
continuation token are unchanged, the metric entries keep their other
payload (their types, in order), and every report other than the first is
returned exactly as it was. -/
theorem del_ga_frame (response : GAResponse) (r0 : Report) (rest : List Report)
    (h : response.reports = r0 :: rest) :
    ∃ r0' : Report, del_ga response = some { reports := r0' :: rest } ∧
      r0'.data = r0.data ∧
      r0'.nextPageToken = r0.nextPageToken ∧
      r0'.columnHeader.metricHeader.metricHeaderEntries.map MetricHeaderEntry.type =
        r0.columnHeader.metricHeader.metricHeaderEntries.map MetricHeaderEntry.type := by
  refine ⟨{ r0 with columnHeader :=
    ⟨r0.columnHeader.dimensions.map (fun x => x.drop 3),
     ⟨r0.columnHeader.metricHeader.metricHeaderEntries.map (fun header =>
        if header.name.take 3 = "ga:" then { header with name := header.name.drop 3 }
        else header)⟩⟩ }, ?_, rfl, rfl, stripName_preserves_type _⟩
  unfold del_ga
  rw [h]

/-- Witness for C10 at a concrete two-report response. -/
theorem del_ga_frame_witness :
    ∃ r0' : Report, del_ga ⟨[reportA, reportB]⟩ = some { reports := r0' :: [reportB] } ∧
      r0'.data = reportA.data ∧
      r0'.nextPageToken = reportA.nextPageToken ∧
      r0'.columnHeader.metricHeader.metricHeaderEntries.map MetricHeaderEntry.type =
        reportA.columnHeader.metricHeader.metricHeaderEntries.map
          MetricHeaderEntry.type :=
  del_ga_frame ⟨[reportA, reportB]⟩ reportA [reportB] rfl

end GA
